import Mathlib

/-!
The trojan-go tunnel core: cipher-name resolution, TLS client construction and
the mux server.

A shallow embedding of

* `tunnel/tls/fingerprint/tls.go` (`ParseCipher`),
* `tunnel/tls/client.go` (`NewClient`, `Client.DialConn`),
* `tunnel/mux/server.go` (`Server.handleConn`, `Server.AcceptConn`, `Server.Close`),

followed by the theorems about them.  Log calls, file reads and the calls made
on other layers are recorded as explicit event lists; library functions whose
code is outside the repository are parameters of the model.
-/

namespace TrojanGo

/-! ## Shared data -/

/-- Log levels of the `log` package used by the three files. -/
inductive Level where
  | trace
  | debug
  | info
  | warn
  | error
deriving DecidableEq, Repr

/-- Errors built by `common.NewError(msg)` and `.Base(err)`; `leaf` also stands
for an error value handed back by a library. -/
inductive Error where
  | leaf (msg : String)
  | based (msg : String) (base : Error)
deriving DecidableEq, Repr

/-- The message of the outermost error. -/
def Error.msg : Error → String
  | .leaf m => m
  | .based m _ => m

/-- Observable effects of the TLS client code: a call of the `log` package with
its arguments in order, or `ioutil.ReadFile` on a path. -/
inductive Event where
  | log (level : Level) (args : List String)
  | readFile (path : String)
deriving DecidableEq, Repr

/-! ## `fingerprint.ParseCipher` -/

/-- The two fields of `tls.CipherSuite` that `ParseCipher` reads. -/
structure CipherSuite where
  ID : Nat
  Name : String
deriving DecidableEq, Repr

/-- The inner loop `for _, q := range all` for one name `p`.  `found` is the
local flag of the source; the loop appends `q.ID` and breaks at the first entry
whose name is `p`, and before moving on from a non-matching entry it runs the
`log.Warn` call guarded by `if !found`. -/
def ParseCipher.scan (p : String) (found : Bool) :
    List CipherSuite → List Nat → List Event → List Nat × List Event
  | [], result, logs => (result, logs)
  | q :: rest, result, logs =>
    if q.Name = p then
      (result ++ [q.ID], logs)
    else
      let logs := if !found then logs ++ [Event.log .warn ["invalid cipher suite", p, "skipped"]]
                  else logs
      ParseCipher.scan p found rest result logs

/-- The outer loop `for _, p := range s`; each iteration starts with
`found := true`. -/
def ParseCipher.loop (all : List CipherSuite) :
    List String → List Nat → List Event → List Nat × List Event
  | [], result, logs => (result, logs)
  | p :: ps, result, logs =>
    let found := true
    let r := ParseCipher.scan p found all result logs
    ParseCipher.loop all ps r.1 r.2

/-- `ParseCipher(s)`: `all` is the value of `tls.CipherSuites()`.  The first
component is the returned slice, the second the log calls made. -/
def ParseCipher (all : List CipherSuite) (s : List String) : List Nat × List Event :=
  ParseCipher.loop all s [] []

/-- The name the registry gives an ID: the `Name` of the first entry carrying
that ID.  This is the rendering direction of the round trip; it is not a
function of the repository. -/
def renderID (all : List CipherSuite) (id : Nat) : Option String :=
  (all.find? (fun q => decide (q.ID = id))).map (fun q => q.Name)

/-- A name is recognised when some registry entry has it as `Name`. -/
def recognised (all : List CipherSuite) (p : String) : Bool :=
  all.any (fun q => decide (q.Name = p))

/-- An example registry: the suites `tls.CipherSuites()` lists in recent Go
releases.  Used for concrete evaluations only; the theorems quantify over the
registry. -/
def sampleCipherSuites : List CipherSuite :=
  [ ⟨0x1301, "TLS_AES_128_GCM_SHA256"⟩,
    ⟨0x1302, "TLS_AES_256_GCM_SHA384"⟩,
    ⟨0x1303, "TLS_CHACHA20_POLY1305_SHA256"⟩,
    ⟨0xc009, "TLS_ECDHE_ECDSA_WITH_AES_128_CBC_SHA"⟩,
    ⟨0xc00a, "TLS_ECDHE_ECDSA_WITH_AES_256_CBC_SHA"⟩,
    ⟨0xc013, "TLS_ECDHE_RSA_WITH_AES_128_CBC_SHA"⟩,
    ⟨0xc014, "TLS_ECDHE_RSA_WITH_AES_256_CBC_SHA"⟩,
    ⟨0xc02b, "TLS_ECDHE_ECDSA_WITH_AES_128_GCM_SHA256"⟩,
    ⟨0xc02c, "TLS_ECDHE_ECDSA_WITH_AES_256_GCM_SHA384"⟩,
    ⟨0xc02f, "TLS_ECDHE_RSA_WITH_AES_128_GCM_SHA256"⟩,
    ⟨0xc030, "TLS_ECDHE_RSA_WITH_AES_256_GCM_SHA384"⟩,
    ⟨0xcca8, "TLS_ECDHE_RSA_WITH_CHACHA20_POLY1305_SHA256"⟩,
    ⟨0xcca9, "TLS_ECDHE_ECDSA_WITH_CHACHA20_POLY1305_SHA256"⟩ ]

/-! ## Library functions used by `NewClient` -/

/-- Go `strings.ToLower`: a string made only of ASCII bytes is mapped byte by
byte (`A`..`Z` to `a`..`z`); any other string is mapped rune by rune through
`unicode.ToLower`, whose case table is the parameter `unicodeLower`. -/
def ToLower (unicodeLower : Char → Char) (s : String) : String :=
  if s.data.all (fun c => decide (c.toNat < 128)) then
    String.mk (s.data.map Char.toLower)
  else
    String.mk (s.data.map unicodeLower)

/-- Worker of `Split`: `cur` holds the characters of the current piece in
reverse. -/
def Split.go (sep : Char) : List Char → List Char → List String
  | [], cur => [String.mk cur.reverse]
  | c :: cs, cur =>
    if c = sep then String.mk cur.reverse :: Split.go sep cs []
    else Split.go sep cs (c :: cur)

/-- Go `strings.Split(s, sep)` for a one-character separator, the only form
the source uses (`":"`): the pieces between the separators, of which there is
always at least one. -/
def Split (s : String) (sep : Char) : List String :=
  Split.go sep s.data []

/-- A parsed certificate as far as the source reads it: the two names it logs,
and the encoded bytes that identify it in a pool. -/
structure Certificate where
  Raw : List Nat
  Issuer : String
  Subject : String
deriving DecidableEq, Repr

/-- An `x509.CertPool`: the certificates added so far. -/
abbrev CertPool := List Certificate

/-- The three fields of a `pem.Block`; `BlockType` is its field `Type`. -/
structure Block where
  BlockType : String
  Headers : List (String × String)
  Bytes : List Nat
deriving DecidableEq, Repr

/-- `CertPool.AddCert`: a certificate already in the pool is not added again. -/
def CertPool.AddCert (s : CertPool) (cert : Certificate) : CertPool :=
  if cert ∈ s then s else s ++ [cert]

/-- What `NewClient` takes from outside the repository: the cipher-suite
registry, the Unicode case table, the file system, the PEM decoder and the
certificate parser.  `Decode` returns the block found (if any) and the rest of
the input; as in `encoding/pem`, the rest is shorter than the input whenever a
block is returned. -/
structure Env where
  all : List CipherSuite
  unicodeLower : Char → Char
  ReadFile : String → Except Error (List Nat)
  Decode : List Nat → Option Block × List Nat
  ParseCertificate : List Nat → Except Error Certificate
  Decode_shrinks : ∀ d b r, Decode d = (some b, r) → r.length < d.length

/-- The loop of `CertPool.AppendCertsFromPEM` (crypto/x509), which the source
calls on the bytes of the CA file: decode block after block, skip a block that
is not a header-free `CERTIFICATE` or does not parse, add every other one and
set `ok`.  `fuel` bounds the number of iterations. -/
def AppendCertsFromPEM.loop (env : Env) :
    Nat → List Nat → CertPool → Bool → CertPool × Bool
  | 0, _, s, ok => (s, ok)
  | fuel + 1, pemCerts, s, ok =>
    if pemCerts.length > 0 then
      match env.Decode pemCerts with
      | (none, _) => (s, ok)
      | (some block, rest) =>
        if block.BlockType ≠ "CERTIFICATE" ∨ block.Headers.length ≠ 0 then
          AppendCertsFromPEM.loop env fuel rest s ok
        else
          match env.ParseCertificate block.Bytes with
          | .error _ => AppendCertsFromPEM.loop env fuel rest s ok
          | .ok cert => AppendCertsFromPEM.loop env fuel rest (CertPool.AddCert s cert) true
    else (s, ok)

/-- `s.AppendCertsFromPEM(pemCerts)`: the pool afterwards and the reported
`ok`.  Every iteration that continues has consumed at least one byte, so
`pemCerts.length` iterations are enough. -/
def AppendCertsFromPEM (env : Env) (s : CertPool) (pemCerts : List Nat) : CertPool × Bool :=
  AppendCertsFromPEM.loop env pemCerts.length pemCerts s false

/-- The blocks successive `pem.Decode` calls return on `data`, up to the first
call that returns no block.  A view of the file used to state theorems. -/
def pemBlocks (env : Env) : Nat → List Nat → List Block
  | 0, _ => []
  | fuel + 1, data =>
    if data.length > 0 then
      match env.Decode data with
      | (none, _) => []
      | (some block, rest) => block :: pemBlocks env fuel rest
    else []

/-- A block `AppendCertsFromPEM` turns into a certificate of the pool. -/
def Block.certificate? (env : Env) (b : Block) : Option Certificate :=
  if b.BlockType ≠ "CERTIFICATE" ∨ b.Headers.length ≠ 0 then none
  else
    match env.ParseCertificate b.Bytes with
    | .error _ => none
    | .ok cert => some cert

/-! ## `tls.NewClient` and `Client.DialConn` -/

/-- The values of `tls.ClientHelloID` the source handles: the zero value of
the struct and the seven `Hello*_Auto` templates of the library, which are
non-zero and pairwise different. -/
inductive ClientHelloID where
  | zero
  | HelloChrome_Auto
  | HelloIOS_Auto
  | HelloFirefox_Auto
  | HelloEdge_Auto
  | HelloSafari_Auto
  | Hello360_Auto
  | HelloQQ_Auto
deriving DecidableEq, Repr

/-- The `TLS` section of the configuration, as read by `NewClient`. -/
structure TLSConfig where
  Verify : Bool
  SNI : String
  Cipher : String
  ReuseSession : Bool
  Fingerprint : String
  CertPath : String
deriving DecidableEq, Repr

/-- The configuration `config.FromContext(ctx, Name)` returns. -/
structure Config where
  RemoteHost : String
  TLS : TLSConfig
deriving DecidableEq, Repr

/-- The `Client` struct.  `underlay` is a handle for the lower layer,
`keyLogger` is `none` for a nil writer, `ca` is `none` for a nil pool. -/
structure Client where
  verify : Bool
  sni : String
  ca : Option CertPool
  cipher : List Nat
  sessionTicket : Bool
  reuseSession : Bool
  fingerprint : String
  helloID : ClientHelloID
  keyLogger : Option Nat
  underlay : Nat
deriving DecidableEq, Repr

/-- The `switch strings.ToLower(cfg.TLS.Fingerprint)` of `NewClient`, on the
lowered string, cases in source order; `none` is the `default` case. -/
def NewClient.switch (lowered : String) : Option ClientHelloID :=
  if lowered = "chrome" then some .HelloChrome_Auto
  else if lowered = "ios" then some .HelloIOS_Auto
  else if lowered = "firefox" then some .HelloFirefox_Auto
  else if lowered = "edge" then some .HelloEdge_Auto
  else if lowered = "safari" then some .HelloSafari_Auto
  else if lowered = "360browser" then some .Hello360_Auto
  else if lowered = "qqbrowser" then some .HelloQQ_Auto
  else none

/-- The loop of `NewClient` that prints certificate information: one trace log
per block that is a header-free `CERTIFICATE` and parses. -/
def NewClient.printCerts (env : Env) : Nat → List Nat → List Event
  | 0, _ => []
  | fuel + 1, pemCerts =>
    if pemCerts.length > 0 then
      match env.Decode pemCerts with
      | (none, _) => []
      | (some block, rest) =>
        if block.BlockType ≠ "CERTIFICATE" ∨ block.Headers.length ≠ 0 then
          NewClient.printCerts env fuel rest
        else
          match env.ParseCertificate block.Bytes with
          | .error _ => NewClient.printCerts env fuel rest
          | .ok cert =>
            Event.log .trace ["issuer:", cert.Issuer, "subject:", cert.Subject]
              :: NewClient.printCerts env fuel rest
    else []

/-- What a call of `NewClient` leaves behind: the returned pair (a client or an
error), the effects in the order they happened, and the configuration record,
which `NewClient` updates in place. -/
structure Outcome where
  result : Except Error Client
  events : List Event
  cfg : Config

/-- The part of `NewClient` after the fingerprint switch, with the template
chosen there. -/
def NewClient.build (env : Env) (cfg : Config) (underlay : Nat) (helloID : ClientHelloID)
    (ev : List Event) : Outcome :=
  let sniEmpty := decide (cfg.TLS.SNI = "")
  let cfg : Config :=
    if sniEmpty then { cfg with TLS := { cfg.TLS with SNI := cfg.RemoteHost } } else cfg
  let ev := if sniEmpty then ev ++ [Event.log .warn ["tls sni is unspecified"]] else ev
  let parsed := ParseCipher env.all (Split cfg.TLS.Cipher ':')
  let ev := ev ++ parsed.2
  let client : Client :=
    { underlay := underlay
      verify := cfg.TLS.Verify
      sni := cfg.TLS.SNI
      cipher := parsed.1
      sessionTicket := cfg.TLS.ReuseSession
      fingerprint := cfg.TLS.Fingerprint
      helloID := helloID
      ca := none
      reuseSession := false
      keyLogger := none }
  if cfg.TLS.CertPath ≠ "" then
    let ev := ev ++ [Event.readFile cfg.TLS.CertPath]
    match env.ReadFile cfg.TLS.CertPath with
    | .error err => ⟨.error (.based "failed to load cert file" err), ev, cfg⟩
    | .ok caCertByte =>
      let appended := AppendCertsFromPEM env [] caCertByte
      let client := { client with ca := some appended.1 }
      let ev := if !appended.2 then ev ++ [Event.log .warn ["invalid cert list"]] else ev
      let ev := ev ++ [Event.log .info ["using custom cert"]]
      let ev := ev ++ NewClient.printCerts env caCertByte.length caCertByte
      ⟨.ok client, ev ++ [Event.log .debug ["tls client created"]], cfg⟩
  else
    let ev := ev ++ [Event.log .info ["cert is unspecified, using default ca list"]]
    ⟨.ok client, ev ++ [Event.log .debug ["tls client created"]], cfg⟩

/-- `NewClient(ctx, underlay)`, with `cfg` the configuration found in `ctx`. -/
def NewClient (env : Env) (cfg : Config) (underlay : Nat) : Outcome :=
  if cfg.TLS.Fingerprint ≠ "" then
    match NewClient.switch (ToLower env.unicodeLower cfg.TLS.Fingerprint) with
    | some helloID =>
      NewClient.build env cfg underlay helloID
        [Event.log .info ["tls fingerprint", cfg.TLS.Fingerprint, "applied"]]
    | none => ⟨.error (.leaf ("invalid fingerprint " ++ cfg.TLS.Fingerprint)), [], cfg⟩
  else
    NewClient.build env cfg underlay .zero []

/-- The configuration literal `DialConn` hands to the TLS library.  The
impersonating path leaves `CipherSuites` and `SessionTicketsDisabled` at their
zero values. -/
structure DialConfig where
  RootCAs : Option CertPool
  ServerName : String
  InsecureSkipVerify : Bool
  KeyLogWriter : Option Nat
  CipherSuites : List Nat
  SessionTicketsDisabled : Bool
deriving DecidableEq, Repr

/-- The TLS connection `DialConn` builds over the underlay connection `conn`:
`tls.UClient(conn, config, helloID)` on the impersonating path, `tls.Client(conn,
config)` on the standard path. -/
inductive TLSConn where
  | UClient (conn : Nat) (config : DialConfig) (helloID : ClientHelloID)
  | Client (conn : Nat) (config : DialConfig)
deriving DecidableEq, Repr

/-- Calls `DialConn` makes on other components. -/
inductive DialEvent where
  | underlayDial (underlay : Nat)
  | handshake (tlsConn : TLSConn)
deriving DecidableEq, Repr

/-- `c.DialConn(_, overlay)`.  `dial` is the result of `c.underlay.DialConn`,
`Handshake` the result of `tlsConn.Handshake()` (`none` for a nil error).  The
value returned on success is the `transport.Conn` wrapping the TLS connection. -/
def Client.DialConn (c : Client) (dial : Except Error Nat) (Handshake : TLSConn → Option Error) :
    Except Error TLSConn × List DialEvent :=
  match dial with
  | .error err => (.error (.based "tls failed to dial conn" err), [.underlayDial c.underlay])
  | .ok conn =>
    if c.fingerprint ≠ "" then
      let tlsConn := TLSConn.UClient conn
        { RootCAs := c.ca
          ServerName := c.sni
          InsecureSkipVerify := !c.verify
          KeyLogWriter := c.keyLogger
          CipherSuites := []
          SessionTicketsDisabled := false } c.helloID
      match Handshake tlsConn with
      | some err =>
        (.error (.based "tls failed to handshake with remote server" err),
          [.underlayDial c.underlay, .handshake tlsConn])
      | none => (.ok tlsConn, [.underlayDial c.underlay, .handshake tlsConn])
    else
      let tlsConn := TLSConn.Client conn
        { InsecureSkipVerify := !c.verify
          ServerName := c.sni
          RootCAs := c.ca
          KeyLogWriter := c.keyLogger
          CipherSuites := c.cipher
          SessionTicketsDisabled := !c.sessionTicket }
      match Handshake tlsConn with
      | some err =>
        (.error (.based "tls failed to handshake with remote server" err),
          [.underlayDial c.underlay, .handshake tlsConn])
      | none => (.ok tlsConn, [.underlayDial c.underlay, .handshake tlsConn])

/-- The fingerprint table of the specification: name to ClientHello template. -/
def fingerprintTable : List (String × ClientHelloID) :=
  [ ("chrome", .HelloChrome_Auto), ("firefox", .HelloFirefox_Auto),
    ("safari", .HelloSafari_Auto), ("ios", .HelloIOS_Auto),
    ("edge", .HelloEdge_Auto), ("360browser", .Hello360_Auto),
    ("qqbrowser", .HelloQQ_Auto) ]

/-- The seven fingerprint names of the specification. -/
def fingerprintNames : List String := fingerprintTable.map Prod.fst

/-! ## `mux.Server` -/

/-- The `Conn` the mux server hands upward: `rwc` is the stream, `Conn` the
underlay connection it came from. -/
structure MuxConn where
  rwc : Nat
  Conn : Nat
deriving DecidableEq, Repr

/-- Calls the mux server code makes on other components, in order. -/
inductive MuxEvent where
  | smuxServer (conn : Nat)
  | logError (err : Error)
  | goHandleSession (session : Nat) (conn : Nat)
  | cancel
  | closeUnderlay (underlay : Nat)
deriving DecidableEq, Repr

/-- The state of a `Server` that `AcceptConn` and `Close` touch: the contents
of the buffered channel `connChan` (oldest first) and whether `ctx.Done()` is
closed. -/
structure Server where
  underlay : Nat
  connChan : List MuxConn
  done : Bool
deriving DecidableEq, Repr

/-- `s.handleConn(conn)`.  `smuxServer` is the result of `smux.Server(conn,
smuxConfig)`: a session handle or an error. -/
def Server.handleConn (smuxServer : Nat → Except Error Nat) (conn : Nat) : List MuxEvent :=
  match smuxServer conn with
  | .error err => [.smuxServer conn, .logError err]
  | .ok smuxSession => [.smuxServer conn, .goHandleSession smuxSession conn]

/-- `s.AcceptConn(_)`.  The `select` has two cases, a receive from `connChan`
(ready when the channel is non-empty) and `<-s.ctx.Done()` (ready when the
context is cancelled).  When both are ready Go picks one at random: `pick` is
that choice, `true` for the receive.  `none` means that no case is ready and
the call stays blocked. -/
def Server.AcceptConn (pick : Bool) (s : Server) : Option (Except Error MuxConn × Server) :=
  match s.connChan, s.done with
  | [], false => none
  | conn :: rest, false => some (.ok conn, { s with connChan := rest })
  | [], true => some (.error (.leaf "mux server closed"), s)
  | conn :: rest, true =>
    if pick then some (.ok conn, { s with connChan := rest })
    else some (.error (.leaf "mux server closed"), s)

/-- `s.Close()`: cancel the context, then return what closing the underlay
returns (`underlayClose`). -/
def Server.Close (underlayClose : Option Error) (s : Server) :
    Option Error × Server × List MuxEvent :=
  (underlayClose, { s with done := true }, [.cancel, .closeUnderlay s.underlay])

/-! ## An example environment -/

/-- Example PEM decoder: a first byte `1` or `2` is one header-free
`CERTIFICATE` block whose payload is that byte; anything else holds no block. -/
def sampleDecode : List Nat → Option Block × List Nat
  | 1 :: rest => (some ⟨"CERTIFICATE", [], [1]⟩, rest)
  | 2 :: rest => (some ⟨"CERTIFICATE", [], [2]⟩, rest)
  | d => (none, d)

/-- Example certificate parser: payload `[1]` is a certificate, everything else
is malformed. -/
def sampleParseCertificate : List Nat → Except Error Certificate
  | [1] => .ok ⟨[1], "CN=Example Root", "CN=Example Root"⟩
  | _ => .error (.leaf "x509: malformed certificate")

/-- Example file system: `ca.pem` holds one valid and one malformed block,
`bad.pem` one malformed block; no other file exists. -/
def sampleReadFile (path : String) : Except Error (List Nat) :=
  if path = "ca.pem" then .ok [1, 2]
  else if path = "bad.pem" then .ok [2]
  else .error (.leaf "open: no such file or directory")

/-- The example environment used for concrete evaluations. -/
def sampleEnv : Env where
  all := sampleCipherSuites
  unicodeLower := fun c => c
  ReadFile := sampleReadFile
  Decode := sampleDecode
  ParseCertificate := sampleParseCertificate
  Decode_shrinks := by
    intro d b r h
    unfold sampleDecode at h
    split at h
    · simp only [Prod.mk.injEq] at h
      rw [← h.2]
      simp
    · simp only [Prod.mk.injEq] at h
      rw [← h.2]
      simp
    · simp at h

/-- An example configuration; the fingerprint and the CA path are varied in
the evaluations. -/
def sampleConfig (fingerprint certPath : String) : Config :=
  { RemoteHost := "proxy.example.test"
    TLS :=
      { Verify := true
        SNI := ""
        Cipher := "TLS_AES_128_GCM_SHA256:NOT_A_CIPHER:TLS_AES_256_GCM_SHA384"
        ReuseSession := true
        Fingerprint := fingerprint
        CertPath := certPath } }

/-- Whether an outcome carries a client. -/
def Outcome.accepted (o : Outcome) : Bool :=
  match o.result with
  | .ok _ => true
  | .error _ => false

/-! ## Auxiliary definitions used in the statements and proofs -/

/-- The ID `ParseCipher` emits for one name: that of the first registry entry
with this name, if there is one. -/
def lookupName (all : List CipherSuite) (p : String) : Option Nat :=
  (all.find? (fun q => decide (q.Name = p))).map (fun q => q.ID)

/-- The server name `NewClient` ends up with. -/
def effectiveSNI (cfg : Config) : String :=
  if cfg.TLS.SNI = "" then cfg.RemoteHost else cfg.TLS.SNI

/-- The events of the SNI step. -/
def sniEvents (cfg : Config) : List Event :=
  if cfg.TLS.SNI = "" then [Event.log .warn ["tls sni is unspecified"]] else []

/-- The client literal of `NewClient`, before the CA pool is set. -/
def baseClient (env : Env) (cfg : Config) (underlay : Nat) (helloID : ClientHelloID) : Client :=
  { underlay := underlay
    verify := cfg.TLS.Verify
    sni := effectiveSNI cfg
    cipher := (ParseCipher env.all (Split cfg.TLS.Cipher ':')).1
    sessionTicket := cfg.TLS.ReuseSession
    fingerprint := cfg.TLS.Fingerprint
    helloID := helloID
    ca := none
    reuseSession := false
    keyLogger := none }

/-- The events of the branch that loads the CA file `data`. -/
def caEvents (env : Env) (data : List Nat) : List Event :=
  (if (AppendCertsFromPEM env [] data).2 then [] else [Event.log .warn ["invalid cert list"]])
    ++ [Event.log .info ["using custom cert"]]
    ++ NewClient.printCerts env data.length data
    ++ [Event.log .debug ["tls client created"]]

/-- The configuration literal of the standard path of `DialConn`. -/
def Client.standardConfig (c : Client) : DialConfig :=
  { InsecureSkipVerify := !c.verify
    ServerName := c.sni
    RootCAs := c.ca
    KeyLogWriter := c.keyLogger
    CipherSuites := c.cipher
    SessionTicketsDisabled := !c.sessionTicket }

/-- The configuration literal of the impersonating path of `DialConn`. -/
def Client.impersonatingConfig (c : Client) : DialConfig :=
  { RootCAs := c.ca
    ServerName := c.sni
    InsecureSkipVerify := !c.verify
    KeyLogWriter := c.keyLogger
    CipherSuites := []
    SessionTicketsDisabled := false }

/-- The certificates `AppendCertsFromPEM` adds, in file order. -/
def pemCertificates (env : Env) (fuel : Nat) (data : List Nat) : List Certificate :=
  (pemBlocks env fuel data).filterMap (Block.certificate? env)

/-- The events of the fingerprint step of an accepted configuration. -/
def fingerprintEvents (cfg : Config) : List Event :=
  if cfg.TLS.Fingerprint = "" then []
  else [Event.log .info ["tls fingerprint", cfg.TLS.Fingerprint, "applied"]]

/-! ## Theorems: `ParseCipher` -/

theorem ParseCipher.scan_true (p : String) (all : List CipherSuite) (result : List Nat)
    (logs : List Event) :
    ParseCipher.scan p true all result logs = (result ++ (lookupName all p).toList, logs) := by
  induction all with
  | nil => simp [ParseCipher.scan, lookupName]
  | cons q rest ih =>
    unfold ParseCipher.scan
    by_cases h : q.Name = p
    · simp [h, lookupName, List.find?]
    · simp only [h, if_false, Bool.not_true, Bool.false_eq_true]
      rw [ih]
      simp [lookupName, List.find?, h]

theorem ParseCipher.loop_eq (all : List CipherSuite) (s : List String) (result : List Nat)
    (logs : List Event) :
    ParseCipher.loop all s result logs = (result ++ s.filterMap (lookupName all), logs) := by
  induction s generalizing result logs with
  | nil => simp [ParseCipher.loop]
  | cons p ps ih =>
    unfold ParseCipher.loop
    simp only [ParseCipher.scan_true]
    rw [ih]
    cases h : lookupName all p <;> simp [List.filterMap_cons, h]

theorem ParseCipher_fst (all : List CipherSuite) (s : List String) :
    (ParseCipher all s).1 = s.filterMap (lookupName all) := by
  simp [ParseCipher, ParseCipher.loop_eq]

theorem ParseCipher_snd (all : List CipherSuite) (s : List String) :
    (ParseCipher all s).2 = [] := by
  simp [ParseCipher, ParseCipher.loop_eq]

theorem lookupName_isSome (all : List CipherSuite) (p : String) :
    (lookupName all p).isSome = recognised all p := by
  induction all with
  | nil => simp [lookupName, recognised]
  | cons q rest ih =>
    by_cases h : q.Name = p
    · simp [lookupName, recognised, List.find?, h]
    · simp only [lookupName, recognised] at ih
      simp [lookupName, recognised, List.find?, h, ih]

/-- C1: `ParseCipher` returns the list obtained by walking the input in order
and emitting, for each name, the ID of the registry entry with that name when
there is one and nothing otherwise; the empty input gives the empty list, and
the result of a concatenation is the concatenation of the results, so repeated
names give repeated IDs. -/
theorem ParseCipher_result (all : List CipherSuite) (s t : List String) :
    (ParseCipher all s).1
        = s.filterMap
            (fun p => (all.find? (fun q => decide (q.Name = p))).map (fun q => q.ID))
      ∧ (ParseCipher all []).1 = []
      ∧ (ParseCipher all (s ++ t)).1 = (ParseCipher all s).1 ++ (ParseCipher all t).1
      ∧ ((ParseCipher all s).1).length = (s.filter (recognised all)).length := by
  refine ⟨?_, ?_, ?_, ?_⟩
  · rw [ParseCipher_fst]; rfl
  · rw [ParseCipher_fst]; rfl
  · simp [ParseCipher_fst, List.filterMap_append]
  · rw [ParseCipher_fst]
    induction s with
    | nil => rfl
    | cons p ps ih =>
      have hp := lookupName_isSome all p
      cases h : lookupName all p with
      | none =>
        rw [h] at hp
        have hr : recognised all p = false := by simpa using hp.symm
        simp [List.filterMap_cons, h, List.filter_cons, hr, ih]
      | some id =>
        rw [h] at hp
        have hr : recognised all p = true := by simpa using hp.symm
        simp [List.filterMap_cons, h, List.filter_cons, hr, ih]

/-- C2: `ParseCipher` makes no log call at all, whatever the registry and the
input: on the input `["NOT_A_CIPHER"]`, a name the example registry does not
hold, it returns the empty list and emits no warning. -/
theorem ParseCipher_never_warns :
    (∀ (all : List CipherSuite) (s : List String), (ParseCipher all s).2 = [])
      ∧ recognised sampleCipherSuites "NOT_A_CIPHER" = false
      ∧ ParseCipher sampleCipherSuites ["NOT_A_CIPHER"] = ([], []) := by
  refine ⟨ParseCipher_snd, by decide, by decide⟩

theorem renderID_lookup (all : List CipherSuite)
    (hid : ∀ q ∈ all, ∀ r ∈ all, q.ID = r.ID → q.Name = r.Name) (p : String) (id : Nat)
    (h : lookupName all p = some id) : renderID all id = some p := by
  unfold lookupName at h
  cases hq : all.find? (fun q => decide (q.Name = p)) with
  | none => simp [hq] at h
  | some q =>
    rw [hq] at h
    simp only [Option.map_some', Option.some.injEq] at h
    have hqmem := List.mem_of_find?_eq_some hq
    have hqname : q.Name = p := by simpa using List.find?_some hq
    unfold renderID
    cases hr : all.find? (fun r => decide (r.ID = id)) with
    | none =>
      have := List.find?_eq_none.mp hr q hqmem
      simp [h] at this
    | some r =>
      have hrmem := List.mem_of_find?_eq_some hr
      have hrid : r.ID = id := by simpa using List.find?_some hr
      have := hid q hqmem r hrmem (by rw [h, hrid])
      simp [← this, hqname]

/-- C10: when the registry gives each ID one name, mapping every ID returned by
`ParseCipher` back to its registry name yields the input with the unrecognised
names removed and nothing else changed; on a list of recognised names, parsing
and then rendering is the identity. -/
theorem ParseCipher_render_roundtrip (all : List CipherSuite)
    (hid : ∀ q ∈ all, ∀ r ∈ all, q.ID = r.ID → q.Name = r.Name) (s : List String) :
    (ParseCipher all s).1.map (renderID all) = (s.filter (recognised all)).map some
      ∧ ((∀ p ∈ s, recognised all p = true) →
          (ParseCipher all s).1.map (renderID all) = s.map some) := by
  have main : (ParseCipher all s).1.map (renderID all)
      = (s.filter (recognised all)).map some := by
    rw [ParseCipher_fst]
    induction s with
    | nil => rfl
    | cons p ps ih =>
      have hp := lookupName_isSome all p
      cases h : lookupName all p with
      | none =>
        rw [h] at hp
        have hr : recognised all p = false := by simpa using hp.symm
        simp only [List.filterMap_cons, h, List.filter_cons, hr, ih]
        simp
      | some id =>
        rw [h] at hp
        have hr : recognised all p = true := by simpa using hp.symm
        simp only [List.filterMap_cons, h, List.filter_cons, hr, if_true, List.map_cons, ih,
          renderID_lookup all hid p id h]
  refine ⟨main, fun hall => ?_⟩
  rw [main, List.filter_eq_self.mpr hall]

/-- Witness for C10 on the example registry. -/
theorem ParseCipher_render_roundtrip_witness :
    (ParseCipher sampleCipherSuites
        ["TLS_AES_256_GCM_SHA384", "NOT_A_CIPHER", "TLS_AES_128_GCM_SHA256",
          "TLS_AES_256_GCM_SHA384"]).1.map (renderID sampleCipherSuites)
      = [some "TLS_AES_256_GCM_SHA384", some "TLS_AES_128_GCM_SHA256",
          some "TLS_AES_256_GCM_SHA384"] := by
  have h := (ParseCipher_render_roundtrip sampleCipherSuites (by decide)
    ["TLS_AES_256_GCM_SHA384", "NOT_A_CIPHER", "TLS_AES_128_GCM_SHA256",
      "TLS_AES_256_GCM_SHA384"]).1
  rw [h]
  decide

/-! ## Theorems: `NewClient` and `DialConn` -/

theorem NewClient.switch_eq_none_iff (l : String) :
    NewClient.switch l = none ↔ l ∉ fingerprintNames := by
  unfold NewClient.switch
  simp only [fingerprintNames, fingerprintTable, List.map_cons, List.map_nil, List.mem_cons,
    List.mem_singleton, List.not_mem_nil, or_false, not_or]
  constructor
  · intro h
    split_ifs at h
    simp_all
  · rintro ⟨h1, h2, h3, h4, h5, h6, h7⟩
    simp [h1, h2, h3, h4, h5, h6, h7]

theorem NewClient.switch_eq_some_iff (l : String) (id : ClientHelloID) :
    NewClient.switch l = some id ↔ (l, id) ∈ fingerprintTable := by
  unfold NewClient.switch
  simp only [fingerprintTable, List.mem_cons, List.mem_singleton, Prod.mk.injEq,
    List.not_mem_nil, or_false]
  constructor
  · intro h
    split_ifs at h <;> simp_all
  · rintro (⟨rfl, rfl⟩ | ⟨rfl, rfl⟩ | ⟨rfl, rfl⟩ | ⟨rfl, rfl⟩ | ⟨rfl, rfl⟩ | ⟨rfl, rfl⟩ | ⟨rfl, rfl⟩) <;>
      decide

theorem fingerprintTable_ne_zero (l : String) (id : ClientHelloID)
    (h : (l, id) ∈ fingerprintTable) : id ≠ .zero := by
  simp only [fingerprintTable, List.mem_cons, List.mem_singleton, Prod.mk.injEq,
    List.not_mem_nil, or_false] at h
  rcases h with ⟨_, rfl⟩ | ⟨_, rfl⟩ | ⟨_, rfl⟩ | ⟨_, rfl⟩ | ⟨_, rfl⟩ | ⟨_, rfl⟩ | ⟨_, rfl⟩ <;>
    decide

theorem ToLower_fingerprintName (ul : Char → Char) (l : String) (id : ClientHelloID)
    (h : (l, id) ∈ fingerprintTable) : ToLower ul l = l := by
  simp only [fingerprintTable, List.mem_cons, List.mem_singleton, Prod.mk.injEq,
    List.not_mem_nil, or_false] at h
  rcases h with ⟨rfl, _⟩ | ⟨rfl, _⟩ | ⟨rfl, _⟩ | ⟨rfl, _⟩ | ⟨rfl, _⟩ | ⟨rfl, _⟩ | ⟨rfl, _⟩ <;>
    rfl

theorem NewClient.build_noCert (env : Env) (cfg : Config) (u : Nat) (id : ClientHelloID)
    (ev : List Event) (hc : cfg.TLS.CertPath = "") :
    (NewClient.build env cfg u id ev).result = .ok (baseClient env cfg u id)
      ∧ (NewClient.build env cfg u id ev).events
          = ev ++ sniEvents cfg
              ++ [Event.log .info ["cert is unspecified, using default ca list"],
                  Event.log .debug ["tls client created"]] := by
  unfold NewClient.build baseClient effectiveSNI sniEvents
  by_cases hs : cfg.TLS.SNI = "" <;> simp [hs, hc, ParseCipher_snd]

theorem NewClient.build_readError (env : Env) (cfg : Config) (u : Nat) (id : ClientHelloID)
    (ev : List Event) (hc : cfg.TLS.CertPath ≠ "") (err : Error)
    (hr : env.ReadFile cfg.TLS.CertPath = .error err) :
    (NewClient.build env cfg u id ev).result = .error (.based "failed to load cert file" err)
      ∧ (NewClient.build env cfg u id ev).events
          = ev ++ sniEvents cfg ++ [Event.readFile cfg.TLS.CertPath] := by
  unfold NewClient.build sniEvents
  by_cases hs : cfg.TLS.SNI = "" <;> simp [hs, hc, hr, ParseCipher_snd]

theorem NewClient.build_readOk (env : Env) (cfg : Config) (u : Nat) (id : ClientHelloID)
    (ev : List Event) (hc : cfg.TLS.CertPath ≠ "") (data : List Nat)
    (hr : env.ReadFile cfg.TLS.CertPath = .ok data) :
    (NewClient.build env cfg u id ev).result
        = .ok { baseClient env cfg u id with ca := some (AppendCertsFromPEM env [] data).1 }
      ∧ (NewClient.build env cfg u id ev).events
          = ev ++ sniEvents cfg ++ [Event.readFile cfg.TLS.CertPath] ++ caEvents env data := by
  unfold NewClient.build baseClient effectiveSNI sniEvents caEvents
  by_cases hs : cfg.TLS.SNI = "" <;>
    cases hok : (AppendCertsFromPEM env [] data).2 <;>
    simp [hs, hc, hr, hok, ParseCipher_snd]

theorem NewClient_empty (env : Env) (cfg : Config) (u : Nat) (hfp : cfg.TLS.Fingerprint = "") :
    NewClient env cfg u = NewClient.build env cfg u .zero [] := by
  simp [NewClient, hfp]

theorem NewClient_some (env : Env) (cfg : Config) (u : Nat) (id : ClientHelloID)
    (hfp : cfg.TLS.Fingerprint ≠ "")
    (hs : NewClient.switch (ToLower env.unicodeLower cfg.TLS.Fingerprint) = some id) :
    NewClient env cfg u
      = NewClient.build env cfg u id
          [Event.log .info ["tls fingerprint", cfg.TLS.Fingerprint, "applied"]] := by
  simp [NewClient, hfp, hs]

theorem NewClient_none (env : Env) (cfg : Config) (u : Nat)
    (hfp : cfg.TLS.Fingerprint ≠ "")
    (hs : NewClient.switch (ToLower env.unicodeLower cfg.TLS.Fingerprint) = none) :
    NewClient env cfg u
      = ⟨.error (.leaf ("invalid fingerprint " ++ cfg.TLS.Fingerprint)), [], cfg⟩ := by
  simp [NewClient, hfp, hs]

theorem NewClient.build_ok (env : Env) (cfg : Config) (u : Nat) (id : ClientHelloID)
    (ev : List Event) (c : Client) (h : (NewClient.build env cfg u id ev).result = .ok c) :
    c = { baseClient env cfg u id with ca := c.ca } := by
  by_cases hc : cfg.TLS.CertPath = ""
  · rw [(NewClient.build_noCert env cfg u id ev hc).1] at h
    injection h with h
    rw [← h]
  · cases hr : env.ReadFile cfg.TLS.CertPath with
    | error err =>
      rw [(NewClient.build_readError env cfg u id ev hc err hr).1] at h
      cases h
    | ok data =>
      rw [(NewClient.build_readOk env cfg u id ev hc data hr).1] at h
      injection h with h
      rw [← h]

/-- The template an accepted configuration leads to: the zero value for the
empty fingerprint, the table entry of the lowered name otherwise. -/
theorem NewClient_ok (env : Env) (cfg : Config) (u : Nat) (c : Client)
    (h : (NewClient env cfg u).result = .ok c) :
    ∃ id, c = { baseClient env cfg u id with ca := c.ca }
      ∧ ((cfg.TLS.Fingerprint = "" ∧ id = .zero)
          ∨ (cfg.TLS.Fingerprint ≠ ""
              ∧ (ToLower env.unicodeLower cfg.TLS.Fingerprint, id) ∈ fingerprintTable)) := by
  by_cases hfp : cfg.TLS.Fingerprint = ""
  · rw [NewClient_empty env cfg u hfp] at h
    exact ⟨.zero, NewClient.build_ok env cfg u _ _ c h, Or.inl ⟨hfp, rfl⟩⟩
  · cases hs : NewClient.switch (ToLower env.unicodeLower cfg.TLS.Fingerprint) with
    | none =>
      rw [NewClient_none env cfg u hfp hs] at h
      cases h
    | some id =>
      rw [NewClient_some env cfg u id hfp hs] at h
      exact ⟨id, NewClient.build_ok env cfg u _ _ c h,
        Or.inr ⟨hfp, (NewClient.switch_eq_some_iff _ _).mp hs⟩⟩

/-- C3, as stated, fails: the fingerprint `Chrome` is non-empty and is not one
of the seven names, yet `NewClient` accepts it and selects the Chrome template,
logging and reading the CA file on the way. -/
theorem NewClient_accepts_mixed_case_fingerprint :
    (sampleConfig "Chrome" "ca.pem").TLS.Fingerprint ≠ ""
      ∧ (sampleConfig "Chrome" "ca.pem").TLS.Fingerprint ∉ fingerprintNames
      ∧ (∃ c, (NewClient sampleEnv (sampleConfig "Chrome" "ca.pem") 0).result = .ok c
          ∧ c.helloID = .HelloChrome_Auto)
      ∧ Event.readFile "ca.pem" ∈ (NewClient sampleEnv (sampleConfig "Chrome" "ca.pem") 0).events := by
  refine ⟨by decide, by decide, ⟨_, rfl, rfl⟩, by decide⟩

/-- C3, amended: when the fingerprint is non-empty and its lower-cased form is
not one of the seven names, `NewClient` returns no client and the error
`invalid fingerprint <value>`, and it has made no log call and read no file;
the configuration is left as it was. -/
theorem NewClient_invalid_fingerprint (env : Env) (cfg : Config) (u : Nat)
    (hne : cfg.TLS.Fingerprint ≠ "")
    (hnot : ToLower env.unicodeLower cfg.TLS.Fingerprint ∉ fingerprintNames) :
    (NewClient env cfg u).result
        = .error (.leaf ("invalid fingerprint " ++ cfg.TLS.Fingerprint))
      ∧ (∃ e, (NewClient env cfg u).result = .error e
          ∧ "invalid fingerprint ".data <+: e.msg.data)
      ∧ (NewClient env cfg u).events = []
      ∧ (NewClient env cfg u).cfg = cfg := by
  have hs := (NewClient.switch_eq_none_iff _).mpr hnot
  rw [NewClient_none env cfg u hne hs]
  refine ⟨rfl, ⟨_, rfl, ?_⟩, rfl, rfl⟩
  simp only [Error.msg, String.data_append]
  exact List.prefix_append _ _

/-- Witness for the amended C3: the fingerprint `netscape`. -/
theorem NewClient_invalid_fingerprint_witness :
    (NewClient sampleEnv (sampleConfig "netscape" "ca.pem") 0).result
        = .error (.leaf "invalid fingerprint netscape")
      ∧ (NewClient sampleEnv (sampleConfig "netscape" "ca.pem") 0).events = [] :=
  have h := NewClient_invalid_fingerprint sampleEnv (sampleConfig "netscape" "ca.pem") 0
    (by decide) (by decide)
  ⟨h.1, h.2.2.1⟩

/-- C4, as stated, fails: the configuration with fingerprint `Chrome` is
accepted, the fingerprint table assigns nothing to `Chrome`, and `DialConn`
still takes the impersonating path, with the Chrome template. -/
theorem DialConn_fingerprint_outside_table :
    (sampleConfig "Chrome" "").TLS.Fingerprint ≠ ""
      ∧ (∀ id, ((sampleConfig "Chrome" "").TLS.Fingerprint, id) ∉ fingerprintTable)
      ∧ ∃ c config, (NewClient sampleEnv (sampleConfig "Chrome" "") 7).result = .ok c
          ∧ (c.DialConn (.ok 3) (fun _ => none)).2
              = [.underlayDial 7, .handshake (.UClient 3 config .HelloChrome_Auto)] := by
  refine ⟨by decide, ?_, ⟨_, _, rfl, rfl⟩⟩
  intro id
  cases id <;> decide

/-- C4, amended: for an accepted configuration and a successful underlay dial,
`DialConn` performs exactly one handshake: on the standard path when the
fingerprint is empty, and otherwise on the impersonating path with the template
the fingerprint table gives the lower-cased fingerprint, which is never the
zero template; a fingerprint that is one of the seven names leads to its own
table entry. -/
theorem DialConn_uses_fingerprint_table (env : Env) (cfg : Config) (u : Nat) (c : Client)
    (h : (NewClient env cfg u).result = .ok c) (conn : Nat) (Handshake : TLSConn → Option Error) :
    (cfg.TLS.Fingerprint = "" →
        ∃ config, (c.DialConn (.ok conn) Handshake).2
          = [.underlayDial u, .handshake (.Client conn config)])
      ∧ (cfg.TLS.Fingerprint ≠ "" →
        ∃ config id, (ToLower env.unicodeLower cfg.TLS.Fingerprint, id) ∈ fingerprintTable
          ∧ id ≠ .zero
          ∧ (c.DialConn (.ok conn) Handshake).2
              = [.underlayDial u, .handshake (.UClient conn config id)])
      ∧ (∀ id, (cfg.TLS.Fingerprint, id) ∈ fingerprintTable →
        ∃ config, (c.DialConn (.ok conn) Handshake).2
          = [.underlayDial u, .handshake (.UClient conn config id)])
      ∧ (∀ config, DialEvent.handshake (.UClient conn config .zero)
          ∉ (c.DialConn (.ok conn) Handshake).2) := by
  obtain ⟨id, hc, hid⟩ := NewClient_ok env cfg u c h
  have hfp : c.fingerprint = cfg.TLS.Fingerprint := by rw [hc]; rfl
  have hhello : c.helloID = id := by rw [hc]; rfl
  have hu : c.underlay = u := by rw [hc]; rfl
  have hstd : cfg.TLS.Fingerprint = "" →
      ∃ config, (c.DialConn (.ok conn) Handshake).2
        = [.underlayDial u, .handshake (.Client conn config)] := by
    intro he
    refine ⟨c.standardConfig, ?_⟩
    unfold Client.DialConn Client.standardConfig
    simp only [hfp, he, ne_eq, not_true_eq_false, if_false, hu]
    split <;> rfl
  have himp : cfg.TLS.Fingerprint ≠ "" →
      ∃ config, (c.DialConn (.ok conn) Handshake).2
        = [.underlayDial u, .handshake (.UClient conn config id)] := by
    intro hne
    refine ⟨c.impersonatingConfig, ?_⟩
    unfold Client.DialConn Client.impersonatingConfig
    simp only [hfp, hne, ne_eq, not_false_eq_true, if_true, hu, hhello]
    split <;> rfl
  refine ⟨hstd, ?_, ?_, ?_⟩
  · intro hne
    rcases hid with ⟨he, _⟩ | ⟨_, hmem⟩
    · exact absurd he hne
    · obtain ⟨config, hev⟩ := himp hne
      exact ⟨config, id, hmem, fingerprintTable_ne_zero _ _ hmem, hev⟩
  · intro id2 hmem2
    have hne : cfg.TLS.Fingerprint ≠ "" := by
      intro he
      rw [he] at hmem2
      simp [fingerprintTable] at hmem2
    rcases hid with ⟨he, _⟩ | ⟨_, hmem⟩
    · exact absurd he hne
    · rw [ToLower_fingerprintName env.unicodeLower _ id2 hmem2] at hmem
      have : id = id2 := by
        have h1 := (NewClient.switch_eq_some_iff _ _).mpr hmem
        have h2 := (NewClient.switch_eq_some_iff _ _).mpr hmem2
        rw [h1] at h2
        exact Option.some.inj h2
      rw [← this]
      exact himp hne
  · intro config hmem
    by_cases he : cfg.TLS.Fingerprint = ""
    · obtain ⟨config2, hev⟩ := hstd he
      rw [hev] at hmem
      simp at hmem
    · rcases hid with ⟨he2, _⟩ | ⟨_, hmemt⟩
      · exact he he2
      · obtain ⟨config2, hev⟩ := himp he
        rw [hev] at hmem
        simp only [List.mem_cons, List.mem_singleton, DialEvent.handshake.injEq,
          TLSConn.UClient.injEq, List.not_mem_nil, or_false, reduceCtorEq, false_or] at hmem
        exact fingerprintTable_ne_zero _ _ hmemt hmem.2.2.symm

/-- Witness for the amended C4: the fingerprint `firefox`. -/
theorem DialConn_uses_fingerprint_table_witness :
    ∃ c config, (NewClient sampleEnv (sampleConfig "firefox" "") 7).result = .ok c
      ∧ (c.DialConn (.ok 3) (fun _ => none)).2
        = [.underlayDial 7, .handshake (.UClient 3 config .HelloFirefox_Auto)] := by
  obtain ⟨config, hev⟩ :=
    (DialConn_uses_fingerprint_table sampleEnv (sampleConfig "firefox" "") 7 _ rfl 3
      (fun _ => none)).2.2.1 .HelloFirefox_Auto (by decide)
  exact ⟨_, config, rfl, hev⟩

/-! ### The CA file -/

/-- With the decoder consuming input on every block, any fuel of at least the
input length gives the same blocks: the bound in `AppendCertsFromPEM` and in
`NewClient` never cuts a loop short. -/
theorem pemBlocks_fuel (env : Env) (f1 f2 : Nat) (d : List Nat)
    (h1 : d.length ≤ f1) (h2 : d.length ≤ f2) : pemBlocks env f1 d = pemBlocks env f2 d := by
  induction f1 generalizing f2 d with
  | zero =>
    have hd : d = [] := List.length_eq_zero.mp (Nat.le_zero.mp h1)
    subst hd
    cases f2 <;> simp [pemBlocks]
  | succ n ih =>
    cases f2 with
    | zero =>
      have hd : d = [] := List.length_eq_zero.mp (Nat.le_zero.mp h2)
      subst hd
      simp [pemBlocks]
    | succ m =>
      unfold pemBlocks
      by_cases hpos : d.length > 0
      · simp only [hpos, if_true]
        rcases hdec : env.Decode d with ⟨_ | b, r⟩
        · rfl
        · have hlt := env.Decode_shrinks d b r hdec
          simp only
          rw [ih m r (by omega) (by omega)]
      · simp [hpos]

theorem foldl_AddCert_mem (certs : List Certificate) (s : CertPool) (cert : Certificate) :
    cert ∈ List.foldl CertPool.AddCert s certs ↔ cert ∈ s ∨ cert ∈ certs := by
  induction certs generalizing s with
  | nil => simp
  | cons x xs ih =>
    rw [List.foldl_cons, ih]
    unfold CertPool.AddCert
    by_cases hx : x ∈ s
    · simp only [hx, if_true, List.mem_cons]
      constructor
      · rintro (h | h)
        · exact Or.inl h
        · exact Or.inr (Or.inr h)
      · rintro (h | rfl | h)
        · exact Or.inl h
        · exact Or.inl hx
        · exact Or.inr h
    · simp only [hx, if_false, List.mem_append, List.mem_singleton, List.mem_cons]
      tauto

theorem Block.certificate?_skip (env : Env) (b : Block)
    (hb : b.BlockType ≠ "CERTIFICATE" ∨ b.Headers.length ≠ 0) :
    Block.certificate? env b = none := by
  unfold Block.certificate?
  rw [if_pos hb]

theorem Block.certificate?_error (env : Env) (b : Block)
    (hb : ¬ (b.BlockType ≠ "CERTIFICATE" ∨ b.Headers.length ≠ 0)) (e : Error)
    (hp : env.ParseCertificate b.Bytes = .error e) :
    Block.certificate? env b = none := by
  unfold Block.certificate?
  rw [if_neg hb, hp]

theorem Block.certificate?_ok (env : Env) (b : Block)
    (hb : ¬ (b.BlockType ≠ "CERTIFICATE" ∨ b.Headers.length ≠ 0)) (cert : Certificate)
    (hp : env.ParseCertificate b.Bytes = .ok cert) :
    Block.certificate? env b = some cert := by
  unfold Block.certificate?
  rw [if_neg hb, hp]

theorem AppendCertsFromPEM.loop_blocks (env : Env) (fuel : Nat) (d : List Nat) (s : CertPool)
    (ok : Bool) :
    AppendCertsFromPEM.loop env fuel d s ok
      = (List.foldl CertPool.AddCert s (pemCertificates env fuel d),
          ok || !(pemCertificates env fuel d).isEmpty) := by
  induction fuel generalizing d s ok with
  | zero => simp [AppendCertsFromPEM.loop, pemCertificates, pemBlocks]
  | succ n ih =>
    unfold AppendCertsFromPEM.loop pemCertificates pemBlocks
    by_cases hpos : d.length > 0
    · simp only [hpos, if_true]
      rcases hdec : env.Decode d with ⟨_ | b, r⟩
      · simp
      · simp only [List.filterMap_cons]
        by_cases hb : b.BlockType ≠ "CERTIFICATE" ∨ b.Headers.length ≠ 0
        · have hnone := Block.certificate?_skip env b hb
          simp only [hb, if_true, hnone]
          rw [ih]
          rfl
        · cases hp : env.ParseCertificate b.Bytes with
          | error e =>
            have hnone := Block.certificate?_error env b hb e hp
            simp only [hb, if_false, hnone]
            rw [ih]
            rfl
          | ok cert =>
            have hsome := Block.certificate?_ok env b hb cert hp
            simp only [hb, if_false, hsome]
            rw [ih]
            simp [pemCertificates]
    · simp [hpos]

theorem NewClient.printCerts_blocks (env : Env) (fuel : Nat) (d : List Nat) :
    NewClient.printCerts env fuel d
      = (pemCertificates env fuel d).map
          (fun cert => Event.log .trace ["issuer:", cert.Issuer, "subject:", cert.Subject]) := by
  induction fuel generalizing d with
  | zero => simp [NewClient.printCerts, pemCertificates, pemBlocks]
  | succ n ih =>
    unfold NewClient.printCerts pemCertificates pemBlocks
    by_cases hpos : d.length > 0
    · simp only [hpos, if_true]
      rcases hdec : env.Decode d with ⟨_ | b, r⟩
      · simp
      · simp only [List.filterMap_cons]
        by_cases hb : b.BlockType ≠ "CERTIFICATE" ∨ b.Headers.length ≠ 0
        · have hnone := Block.certificate?_skip env b hb
          simp only [hb, if_true, hnone]
          rw [ih]
          rfl
        · cases hp : env.ParseCertificate b.Bytes with
          | error e =>
            have hnone := Block.certificate?_error env b hb e hp
            simp only [hb, if_false, hnone]
            rw [ih]
            rfl
          | ok cert =>
            have hsome := Block.certificate?_ok env b hb cert hp
            simp only [hb, if_false, hsome]
            rw [ih]
            simp [pemCertificates]
    · simp [hpos]

/-- Fuel beyond the input length changes nothing in `AppendCertsFromPEM`. -/
theorem AppendCertsFromPEM.loop_fuel (env : Env) (fuel : Nat) (d : List Nat) (s : CertPool)
    (ok : Bool) (h : d.length ≤ fuel) :
    AppendCertsFromPEM.loop env fuel d s ok = AppendCertsFromPEM.loop env d.length d s ok := by
  rw [AppendCertsFromPEM.loop_blocks, AppendCertsFromPEM.loop_blocks]
  unfold pemCertificates
  rw [pemBlocks_fuel env fuel d.length d h (Nat.le_refl _)]

/-- Fuel beyond the input length changes nothing in the certificate printing
loop of `NewClient`. -/
theorem NewClient.printCerts_fuel (env : Env) (fuel : Nat) (d : List Nat)
    (h : d.length ≤ fuel) :
    NewClient.printCerts env fuel d = NewClient.printCerts env d.length d := by
  rw [NewClient.printCerts_blocks, NewClient.printCerts_blocks]
  unfold pemCertificates
  rw [pemBlocks_fuel env fuel d.length d h (Nat.le_refl _)]

theorem AppendCertsFromPEM_ok (env : Env) (data : List Nat) :
    (AppendCertsFromPEM env [] data).2 = !(pemCertificates env data.length data).isEmpty := by
  simp [AppendCertsFromPEM, AppendCertsFromPEM.loop_blocks]

theorem AppendCertsFromPEM_mem (env : Env) (data : List Nat) (cert : Certificate) :
    cert ∈ (AppendCertsFromPEM env [] data).1 ↔ cert ∈ pemCertificates env data.length data := by
  simp [AppendCertsFromPEM, AppendCertsFromPEM.loop_blocks, foldl_AddCert_mem]

theorem caEvents_count_info (env : Env) (data : List Nat) :
    (caEvents env data).count (Event.log .info ["using custom cert"]) = 1 := by
  unfold caEvents
  rw [NewClient.printCerts_blocks]
  have hz : List.count (Event.log .info ["using custom cert"])
      ((pemCertificates env data.length data).map
        (fun cert => Event.log .trace ["issuer:", cert.Issuer, "subject:", cert.Subject])) = 0 := by
    apply List.count_eq_zero.mpr
    simp
  cases (AppendCertsFromPEM env [] data).2 <;> simp [List.count_append, List.count_cons, hz]

theorem caEvents_count_warn (env : Env) (data : List Nat) (w : List String) :
    (caEvents env data).count (Event.log .warn w)
      = if (AppendCertsFromPEM env [] data).2 = false ∧ w = ["invalid cert list"] then 1 else 0 := by
  unfold caEvents
  rw [NewClient.printCerts_blocks]
  have hz : List.count (Event.log .warn w)
      ((pemCertificates env data.length data).map
        (fun cert => Event.log .trace ["issuer:", cert.Issuer, "subject:", cert.Subject])) = 0 := by
    apply List.count_eq_zero.mpr
    simp
  cases (AppendCertsFromPEM env [] data).2
  · by_cases hw : w = ["invalid cert list"]
    · subst hw
      simp [List.count_append, List.count_cons, hz]
    · have hw2 : ¬ ["invalid cert list"] = w := fun h => hw h.symm
      simp [List.count_append, List.count_cons, hz, hw, hw2]
  · simp [List.count_append, List.count_cons, hz]

theorem NewClient_accepting (env : Env) (cfg : Config) (u : Nat)
    (hfp : cfg.TLS.Fingerprint = ""
      ∨ ToLower env.unicodeLower cfg.TLS.Fingerprint ∈ fingerprintNames) :
    ∃ id, NewClient env cfg u = NewClient.build env cfg u id (fingerprintEvents cfg) := by
  by_cases he : cfg.TLS.Fingerprint = ""
  · exact ⟨.zero, by rw [NewClient_empty env cfg u he]; simp [fingerprintEvents, he]⟩
  · rcases hfp with h | h
    · exact absurd h he
    · cases hs : NewClient.switch (ToLower env.unicodeLower cfg.TLS.Fingerprint) with
      | none => exact absurd h ((NewClient.switch_eq_none_iff _).mp hs)
      | some id =>
        exact ⟨id, by rw [NewClient_some env cfg u id he hs]; simp [fingerprintEvents, he]⟩

theorem NewClient_ok_accepting (env : Env) (cfg : Config) (u : Nat) (c : Client)
    (h : (NewClient env cfg u).result = .ok c) :
    cfg.TLS.Fingerprint = ""
      ∨ ToLower env.unicodeLower cfg.TLS.Fingerprint ∈ fingerprintNames := by
  obtain ⟨id, _, hid⟩ := NewClient_ok env cfg u c h
  rcases hid with ⟨he, _⟩ | ⟨_, hmem⟩
  · exact Or.inl he
  · right
    unfold fingerprintNames
    exact List.mem_map.mpr ⟨_, hmem, rfl⟩

theorem fingerprintEvents_count_warn (cfg : Config) (w : List String) :
    (fingerprintEvents cfg).count (Event.log .warn w) = 0 := by
  unfold fingerprintEvents
  split <;> simp [List.count_cons]

theorem fingerprintEvents_count_custom (cfg : Config) :
    (fingerprintEvents cfg).count (Event.log .info ["using custom cert"]) = 0 := by
  unfold fingerprintEvents
  split <;> simp [List.count_cons]

theorem sniEvents_count_info (cfg : Config) (a : List String) :
    (sniEvents cfg).count (Event.log .info a) = 0 := by
  unfold sniEvents
  split <;> simp [List.count_cons]

theorem sniEvents_count_warn (cfg : Config) :
    (sniEvents cfg).count (Event.log .warn ["tls sni is unspecified"])
      = if cfg.TLS.SNI = "" then 1 else 0 := by
  unfold sniEvents
  split <;> simp

theorem sniEvents_count_invalid (cfg : Config) :
    (sniEvents cfg).count (Event.log .warn ["invalid cert list"]) = 0 := by
  unfold sniEvents
  split <;> simp [List.count_cons]

/-- C5: for an accepted configuration the server name stored in the client is
the configured SNI when that is non-empty and the configured RemoteHost when
it is empty, and the warning `tls sni is unspecified` is emitted exactly once
in the second case and not at all in the first. -/
theorem NewClient_sni_default (env : Env) (cfg : Config) (u : Nat) (c : Client)
    (h : (NewClient env cfg u).result = .ok c) :
    (cfg.TLS.SNI ≠ "" → c.sni = cfg.TLS.SNI)
      ∧ (cfg.TLS.SNI = "" → c.sni = cfg.RemoteHost)
      ∧ (NewClient env cfg u).events.count (Event.log .warn ["tls sni is unspecified"])
          = (if cfg.TLS.SNI = "" then 1 else 0)
      ∧ (NewClient env cfg u).cfg.TLS.SNI = c.sni := by
  obtain ⟨id, hc, _⟩ := NewClient_ok env cfg u c h
  have hsni : c.sni = effectiveSNI cfg := by rw [hc]; rfl
  obtain ⟨id2, hb⟩ := NewClient_accepting env cfg u (NewClient_ok_accepting env cfg u c h)
  refine ⟨?_, ?_, ?_, ?_⟩
  · intro hne
    rw [hsni, effectiveSNI, if_neg hne]
  · intro he
    rw [hsni, effectiveSNI, if_pos he]
  · rw [hb] at h ⊢
    by_cases hcp : cfg.TLS.CertPath = ""
    · rw [(NewClient.build_noCert env cfg u id2 _ hcp).2]
      simp only [List.count_append, fingerprintEvents_count_warn, sniEvents_count_warn]
      simp [List.count_cons]
    · cases hr : env.ReadFile cfg.TLS.CertPath with
      | error err =>
        rw [(NewClient.build_readError env cfg u id2 _ hcp err hr).1] at h
        cases h
      | ok data =>
        rw [(NewClient.build_readOk env cfg u id2 _ hcp data hr).2]
        simp only [List.count_append, fingerprintEvents_count_warn, sniEvents_count_warn,
          caEvents_count_warn]
        simp [List.count_cons]
  · rw [hsni, hb]
    unfold NewClient.build effectiveSNI
    by_cases hs : cfg.TLS.SNI = "" <;> by_cases hcp : cfg.TLS.CertPath = "" <;>
      simp only [hs, hcp, decide_True, decide_False, if_true, if_false, ne_eq,
        not_true_eq_false, not_false_eq_true, Bool.false_eq_true]
    all_goals (split <;> rfl)

/-- Witness for C5: an empty SNI and the remote host `proxy.example.test`. -/
theorem NewClient_sni_default_witness :
    ∃ c, (NewClient sampleEnv (sampleConfig "" "ca.pem") 0).result = .ok c
      ∧ c.sni = "proxy.example.test"
      ∧ (NewClient sampleEnv (sampleConfig "" "ca.pem") 0).events.count
          (Event.log .warn ["tls sni is unspecified"]) = 1 :=
  have h := NewClient_sni_default sampleEnv (sampleConfig "" "ca.pem") 0 _ rfl
  ⟨_, rfl, h.2.1 rfl, h.2.2.1⟩

/-- C6: for a client built from a configuration with an empty fingerprint,
the configuration `DialConn` hands to `tls.Client` on the standard path has
`CipherSuites` equal to `ParseCipher` of the colon-separated pieces of
`TLS.Cipher` and `SessionTicketsDisabled` equal to the negation of
`TLS.ReuseSession`; with an empty `TLS.Cipher` (and a registry without an
entry of empty name) `CipherSuites` is empty. -/
theorem DialConn_standard_config (env : Env) (cfg : Config) (u : Nat) (c : Client)
    (h : (NewClient env cfg u).result = .ok c) (hfp : cfg.TLS.Fingerprint = "")
    (conn : Nat) (Handshake : TLSConn → Option Error) :
    ∃ config, (c.DialConn (.ok conn) Handshake).2
          = [.underlayDial u, .handshake (.Client conn config)]
      ∧ config.CipherSuites = (ParseCipher env.all (Split cfg.TLS.Cipher ':')).1
      ∧ config.SessionTicketsDisabled = !cfg.TLS.ReuseSession
      ∧ (cfg.TLS.Cipher = "" → (∀ q ∈ env.all, q.Name ≠ "") → config.CipherSuites = []) := by
  obtain ⟨id, hc, _⟩ := NewClient_ok env cfg u c h
  have hf : c.fingerprint = "" := by rw [hc]; exact hfp
  have hu : c.underlay = u := by rw [hc]; rfl
  have hcipher : c.cipher = (ParseCipher env.all (Split cfg.TLS.Cipher ':')).1 := by
    rw [hc]; rfl
  have hticket : c.sessionTicket = cfg.TLS.ReuseSession := by rw [hc]; rfl
  refine ⟨c.standardConfig, ?_, ?_, ?_, ?_⟩
  · unfold Client.DialConn Client.standardConfig
    simp only [hf, ne_eq, not_true_eq_false, if_false, hu]
    split <;> rfl
  · exact hcipher
  · simp [Client.standardConfig, hticket]
  · intro hempty hreg
    show c.cipher = []
    rw [hcipher, hempty, ParseCipher_fst]
    have hnone : lookupName env.all "" = none := by
      unfold lookupName
      rw [List.find?_eq_none.mpr (fun q hq => by simpa using hreg q hq)]
      rfl
    simp [Split, Split.go, hnone]

/-- Witness for C6: the cipher string of the example configuration. -/
theorem DialConn_standard_config_witness :
    ∃ c config, (NewClient sampleEnv (sampleConfig "" "") 7).result = .ok c
      ∧ (c.DialConn (.ok 3) (fun _ => none)).2
          = [.underlayDial 7, .handshake (.Client 3 config)]
      ∧ config.CipherSuites = [0x1301, 0x1302]
      ∧ config.SessionTicketsDisabled = false := by
  obtain ⟨config, hev, hcs, hst, _⟩ :=
    DialConn_standard_config sampleEnv (sampleConfig "" "") 7 _ rfl rfl 3 (fun _ => none)
  exact ⟨_, config, rfl, hev, hcs.trans (by decide), hst⟩

theorem pemCertificates_mem (env : Env) (fuel : Nat) (data : List Nat) (cert : Certificate) :
    cert ∈ pemCertificates env fuel data
      ↔ ∃ b ∈ pemBlocks env fuel data, Block.certificate? env b = some cert := by
  simp [pemCertificates, List.mem_filterMap]

theorem pemCertificates_isEmpty (env : Env) (fuel : Nat) (data : List Nat) :
    (pemCertificates env fuel data).isEmpty = true
      ↔ ∀ b ∈ pemBlocks env fuel data, Block.certificate? env b = none := by
  rw [List.isEmpty_iff]
  constructor
  · intro h b hb
    cases hc : Block.certificate? env b with
    | none => rfl
    | some cert =>
      have : cert ∈ pemCertificates env fuel data :=
        (pemCertificates_mem env fuel data cert).mpr ⟨b, hb, hc⟩
      rw [h] at this
      cases this
  · intro h
    apply List.eq_nil_iff_forall_not_mem.mpr
    intro cert hmem
    obtain ⟨b, hb, hc⟩ := (pemCertificates_mem env fuel data cert).mp hmem
    rw [h b hb] at hc
    cases hc

/-- C9, as stated, fails: the example file `ca.pem` is readable and holds one
valid and one malformed certificate block, `NewClient` succeeds on it, and the
warning `invalid cert list` is not emitted. -/
theorem NewClient_mixed_ca_file_no_warning :
    sampleEnv.ReadFile "ca.pem" = .ok [1, 2]
      ∧ pemBlocks sampleEnv 2 [1, 2]
          = [⟨"CERTIFICATE", [], [1]⟩, ⟨"CERTIFICATE", [], [2]⟩]
      ∧ Block.certificate? sampleEnv ⟨"CERTIFICATE", [], [1]⟩
          = some ⟨[1], "CN=Example Root", "CN=Example Root"⟩
      ∧ Block.certificate? sampleEnv ⟨"CERTIFICATE", [], [2]⟩ = none
      ∧ (NewClient sampleEnv (sampleConfig "" "ca.pem") 0).accepted = true
      ∧ (NewClient sampleEnv (sampleConfig "" "ca.pem") 0).events.count
          (Event.log .warn ["invalid cert list"]) = 0 := by
  refine ⟨rfl, by decide, by decide, by decide, by decide, by decide⟩

/-- C9, amended: for a readable custom CA file `NewClient` succeeds whatever
the PEM content, stores a new pool holding exactly the certificates of the
blocks that parse, and emits exactly one `using custom cert` info log; the
warning `invalid cert list` is emitted exactly once when no block of the file
yields a certificate and not at all when some block does, so for a file with
one valid and one malformed certificate block there is no such warning and
the pool contains the valid certificate. -/
theorem NewClient_custom_ca (env : Env) (cfg : Config) (u : Nat) (data : List Nat)
    (hfp : cfg.TLS.Fingerprint = ""
      ∨ ToLower env.unicodeLower cfg.TLS.Fingerprint ∈ fingerprintNames)
    (hc : cfg.TLS.CertPath ≠ "") (hr : env.ReadFile cfg.TLS.CertPath = .ok data) :
    ∃ c pool, (NewClient env cfg u).result = .ok c ∧ c.ca = some pool
      ∧ (∀ cert, cert ∈ pool
          ↔ ∃ b ∈ pemBlocks env data.length data, Block.certificate? env b = some cert)
      ∧ (NewClient env cfg u).events.count (Event.log .info ["using custom cert"]) = 1
      ∧ ((∀ b ∈ pemBlocks env data.length data, Block.certificate? env b = none) →
          (NewClient env cfg u).events.count (Event.log .warn ["invalid cert list"]) = 1)
      ∧ (∀ b ∈ pemBlocks env data.length data, ∀ cert, Block.certificate? env b = some cert →
          (NewClient env cfg u).events.count (Event.log .warn ["invalid cert list"]) = 0
            ∧ cert ∈ pool) := by
  obtain ⟨id, hb⟩ := NewClient_accepting env cfg u hfp
  obtain ⟨hres, hev⟩ := NewClient.build_readOk env cfg u id (fingerprintEvents cfg) hc data hr
  have hmem : ∀ cert, cert ∈ (AppendCertsFromPEM env [] data).1
      ↔ ∃ b ∈ pemBlocks env data.length data, Block.certificate? env b = some cert := by
    intro cert
    rw [AppendCertsFromPEM_mem, pemCertificates_mem]
  have hwarn : (NewClient env cfg u).events.count (Event.log .warn ["invalid cert list"])
      = if (AppendCertsFromPEM env [] data).2 = false then 1 else 0 := by
    rw [hb, hev]
    simp only [List.count_append, fingerprintEvents_count_warn, sniEvents_count_invalid,
      caEvents_count_warn]
    simp [List.count_cons]
  refine ⟨_, (AppendCertsFromPEM env [] data).1, by rw [hb, hres], rfl, hmem, ?_, ?_, ?_⟩
  · rw [hb, hev]
    simp only [List.count_append, fingerprintEvents_count_custom, sniEvents_count_info,
      caEvents_count_info]
    simp [List.count_cons]
  · intro hall
    have hempty := (pemCertificates_isEmpty env data.length data).mpr hall
    rw [hwarn, AppendCertsFromPEM_ok, hempty]
    rfl
  · intro b hbmem cert hcert
    have hin : cert ∈ pemCertificates env data.length data :=
      (pemCertificates_mem env data.length data cert).mpr ⟨b, hbmem, hcert⟩
    have hne : (pemCertificates env data.length data).isEmpty = false := by
      cases hl : pemCertificates env data.length data with
      | nil => rw [hl] at hin; cases hin
      | cons x xs => rfl
    refine ⟨?_, (hmem cert).mpr ⟨b, hbmem, hcert⟩⟩
    rw [hwarn, AppendCertsFromPEM_ok, hne]
    rfl

/-- Witness for the amended C9: the example file `ca.pem`, one valid and one
malformed block. -/
theorem NewClient_custom_ca_witness :
    ∃ c pool, (NewClient sampleEnv (sampleConfig "" "ca.pem") 0).result = .ok c
      ∧ c.ca = some pool
      ∧ (⟨[1], "CN=Example Root", "CN=Example Root"⟩ : Certificate) ∈ pool
      ∧ (NewClient sampleEnv (sampleConfig "" "ca.pem") 0).events.count
          (Event.log .info ["using custom cert"]) = 1
      ∧ (NewClient sampleEnv (sampleConfig "" "ca.pem") 0).events.count
          (Event.log .warn ["invalid cert list"]) = 0 := by
  obtain ⟨c, pool, hres, hca, _, hinfo, _, hvalid⟩ :=
    NewClient_custom_ca sampleEnv (sampleConfig "" "ca.pem") 0 [1, 2]
      (Or.inl rfl) (by decide) rfl
  have h := hvalid ⟨"CERTIFICATE", [], [1]⟩ (by decide)
    ⟨[1], "CN=Example Root", "CN=Example Root"⟩ (by decide)
  exact ⟨c, pool, hres, hca, h.2, hinfo, h.1⟩

/-! ## Theorems: `mux.Server` -/

/-- C7, as stated, fails: with one conn still in the channel, an `AcceptConn`
call made after `Close` can return that conn and no error. -/
theorem AcceptConn_after_Close_may_return_conn :
    Server.AcceptConn true
        (Server.Close none { underlay := 0, connChan := [⟨1, 2⟩], done := false }).2.1
      = some (.ok ⟨1, 2⟩, { underlay := 0, connChan := [], done := true }) := by
  rfl

/-- C7, amended: `Close` cancels the context and nothing `AcceptConn` does
undoes that; in every state with the context cancelled an `AcceptConn` call
returns without blocking, and it returns either the `mux server closed` error,
leaving the state as it was, or the oldest conn still in the channel; with an
empty channel it always returns the error. -/
theorem AcceptConn_after_Close (s0 : Server) (e : Option Error) (s : Server) (pick : Bool)
    (h : s.done = true) :
    (Server.Close e s0).2.1.done = true
      ∧ ∃ r s1, Server.AcceptConn pick s = some (r, s1) ∧ s1.done = true
          ∧ ((r = .error (.leaf "mux server closed") ∧ s1 = s)
              ∨ ∃ conn rest, s.connChan = conn :: rest ∧ pick = true ∧ r = .ok conn
                  ∧ s1 = { s with connChan := rest })
          ∧ (s.connChan = [] → r = .error (.leaf "mux server closed"))
          ∧ (pick = false → r = .error (.leaf "mux server closed")) := by
  refine ⟨rfl, ?_⟩
  obtain ⟨underlay, connChan, done⟩ := s
  simp only at h
  subst h
  cases connChan with
  | nil =>
    exact ⟨_, _, rfl, rfl, Or.inl ⟨rfl, rfl⟩, fun _ => rfl, fun _ => rfl⟩
  | cons conn rest =>
    cases pick with
    | false =>
      exact ⟨_, _, rfl, rfl, Or.inl ⟨rfl, rfl⟩, fun hnil => (by cases hnil), fun _ => rfl⟩
    | true =>
      exact ⟨_, _, rfl, rfl, Or.inr ⟨conn, rest, rfl, rfl, rfl, rfl⟩,
        fun hnil => (by cases hnil), fun hp => (by cases hp)⟩

/-- Witness for the amended C7: a closed server with an empty channel. -/
theorem AcceptConn_after_Close_witness :
    Server.AcceptConn true
        (Server.Close none { underlay := 0, connChan := [], done := false }).2.1
      = some (.error (.leaf "mux server closed"),
          { underlay := 0, connChan := [], done := true }) := by
  obtain ⟨_, r, s1, hacc, _, hcase, hempty, _⟩ :=
    AcceptConn_after_Close { underlay := 0, connChan := [], done := false } none
      (Server.Close none { underlay := 0, connChan := [], done := false }).2.1 true rfl
  rcases hcase with ⟨hr, hs⟩ | ⟨conn, rest, hch, _⟩
  · rw [hacc, hr, hs]
    rfl
  · cases hch

end TrojanGo
